import Mathlib

/-!
# Face detector service: image lifecycle handlers

A shallow embedding of the handlers of `image.go` (`Upload`, `Check`, `Result`,
`ServeImage`, `DetectFace`) as pure functions over an explicit server state,
followed by the properties of the image lifecycle that hold (or fail) on them.

Conventions.
* Go `int` and `int64` are both 64-bit here; they are embedded as `Int`, and the
  places where a value is produced by a library call say which range it lies in.
* The global map `ImageResult` is a function `String → Option ImageData`.
* An `echo` JSON reply is the pair of the HTTP status passed to `c.JSON` and the
  response struct; `c.File(filepath.Join(a, b))` is recorded with the arguments
  of `filepath.Join`.
* The Python function `detect_faces` is an oracle: the outcome of its `k`-th
  invocation may depend on `k` and on the path it is given.
-/

namespace FaceDetector

/-! ## Data model -/

/-- Record kept per uploaded image (`type ImageData struct`). -/
structure ImageData where
  FileName : String
  FileExtension : String
  FaceCount : Int
  IsProcessed : Bool
deriving DecidableEq, Repr

/-- Body of the reply of `Upload` (`UploadResponse`, with the embedded `GeneralResponse`). -/
structure UploadResponse where
  Code : Int
  Message : String
  ID : String
deriving DecidableEq, Repr

/-- Body of the reply of `Check` (`CheckResponse`, with the embedded `GeneralResponse`). -/
structure CheckResponse where
  Code : Int
  Message : String
  FaceCount : Int
deriving DecidableEq, Repr

/-- Body of the reply of `Result` and of the error replies of `ServeImage`. -/
structure ResultResponse where
  Code : Int
  Message : String
  ImageURL : String
deriving DecidableEq, Repr

/-- Arguments of a `filepath.Join(dir, name)` call. -/
structure JoinedPath where
  dir : String
  name : String
deriving DecidableEq, Repr

/-- What a handler hands to `echo`: `c.JSON(status, body)` or `c.File(path)`. -/
inductive Reply (α : Type) where
  | json (status : Int) (body : α)
  | file (path : JoinedPath)
deriving DecidableEq, Repr

def StatusOK : Int := 200
def StatusBadRequest : Int := 400
def StatusNotFound : Int := 404
def StatusUnsupportedMediaType : Int := 415
def StatusInternalServerError : Int := 500

/-- The global `ImageResult map[string]ImageData`. -/
abbrev Registry := String → Option ImageData

/-- The map made by `main`: `make(map[string]ImageData)`. -/
def Registry.empty : Registry := fun _ => none

/-- Map assignment `ImageResult[id] = d`. -/
def Registry.set (r : Registry) (id : String) (d : ImageData) : Registry :=
  fun k => if k = id then some d else r k

/-- The table `imageType`; `_, ok := imageType[fileType]` asks for membership. -/
def imageType (fileType : String) : Option Bool :=
  if fileType = "image/jpeg" then some true
  else if fileType = "image/png" then some true
  else none

/-! ## `strconv.Atoi` and `%d` -/

/-- The two errors of `strconv`: `ErrSyntax` and `ErrRange`. -/
inductive ErrKind where
  | invalid
  | outOfRange
deriving DecidableEq, Repr

/-- Text of `ErrSyntax.Error()` and `ErrRange.Error()`. -/
def ErrKind.text : ErrKind → String
  | .invalid => "invalid syntax"
  | .outOfRange => "value out of range"

/-- A `*strconv.NumError`. -/
structure NumError where
  Func : String
  Num : String
  Err : ErrKind
deriving DecidableEq, Repr

/-- The digit of `lowerhex` for a value below 16. -/
def lowerhex (d : Nat) : Char :=
  if d < 10 then Char.ofNat (48 + d) else Char.ofNat (87 + d)

/-- The test `strconv.IsPrint` on the runes up to U+00FF, where it reads no table:
space through `~`, and U+00A1 through U+00FF without the soft hyphen U+00AD. -/
def isPrintLatin1 (n : Nat) : Bool :=
  (decide (32 ≤ n) && decide (n ≤ 126)) ||
    (decide (161 ≤ n) && decide (n ≤ 255) && !decide (n = 173))

/-- What `strconv.Quote` writes for one rune: the quote and the backslash are
backslashed, a printable rune is copied, the seven named control characters get
their letter, the other runes below space and DEL are written `\x` and two hex
digits, the remaining ones up to U+00FF `\u` and four hex digits. Above U+00FF
printability is read from the tables of `unicode`, which are not part of this
development: such a rune is copied, and no statement depends on the text. -/
def quoteRune (c : Char) : List Char :=
  let n := c.toNat
  let bs : Char := Char.ofNat 92
  if n = 34 ∨ n = 92 then [bs, c]
  else if 255 < n ∨ isPrintLatin1 n = true then [c]
  else if n = 7 then [bs, 'a']
  else if n = 8 then [bs, 'b']
  else if n = 12 then [bs, 'f']
  else if n = 10 then [bs, 'n']
  else if n = 13 then [bs, 'r']
  else if n = 9 then [bs, 't']
  else if n = 11 then [bs, 'v']
  else if n < 32 ∨ n = 127 then [bs, 'x', lowerhex (n / 16), lowerhex (n % 16)]
  else [bs, 'u', '0', '0', lowerhex (n / 16), lowerhex (n % 16)]

/-- The function `strconv.Quote`: the escaped runes between double quotes. -/
def strconvQuote (s : String) : String :=
  let dq : Char := Char.ofNat 34
  String.mk (dq :: (s.data.flatMap quoteRune ++ [dq]))

/-- The method `(*NumError).Error()`. -/
def NumError.Error (e : NumError) : String :=
  "strconv." ++ e.Func ++ ": parsing " ++ strconvQuote e.Num ++ ": " ++ e.Err.text

/-- Value of a decimal digit, `none` for every other character. -/
def digitVal (c : Char) : Option Nat :=
  if '0' ≤ c ∧ c ≤ '9' then some (c.toNat - '0'.toNat) else none

/-- The loop of `strconv.ParseUint(s, 10, 64)`: left to right, a character that
is not a digit is a syntax error, an accumulator leaving `uint64` a range error. -/
def parseUintLoop : Nat → List Char → Except ErrKind Nat
  | n, [] => .ok n
  | n, c :: cs =>
    match digitVal c with
    | none => .error .invalid
    | some d => if 2 ^ 64 ≤ n * 10 + d then .error .outOfRange else parseUintLoop (n * 10 + d) cs

/-- The call `strconv.ParseUint(s, 10, 64)`: the empty string is a syntax error. -/
def parseUint (cs : List Char) : Except ErrKind Nat :=
  if cs = [] then .error .invalid else parseUintLoop 0 cs

/-- The call `strconv.ParseInt(s, 10, 0)` with a 64-bit `int`: an optional sign, then
`ParseUint`, then the check against the cutoff `1 << 63`. -/
def parseInt (cs : List Char) : Except ErrKind Int :=
  match cs with
  | [] => .error .invalid
  | c :: rest =>
    let neg : Bool := c = '-'
    let body := if c = '+' ∨ c = '-' then rest else c :: rest
    match parseUint body with
    | .error e => .error e
    | .ok un =>
      if !neg && decide (2 ^ 63 ≤ un) then .error .outOfRange
      else if neg && decide (2 ^ 63 < un) then .error .outOfRange
      else .ok (if neg then -(un : Int) else (un : Int))

/-- The function `strconv.Atoi`. Its fast path (fewer than 19 bytes) accepts and rejects the
same strings with the same values and errors as the `ParseInt` path, so the
two are one function here. -/
def Atoi (s : String) : Except NumError Int :=
  match parseInt s.data with
  | .ok v => .ok v
  | .error e => .error { Func := "Atoi", Num := s, Err := e }

/-- Value of a string of decimal digits, most significant first, on top of `n`. -/
def decimalValue (n : Nat) (cs : List Char) : Nat :=
  cs.foldl (fun acc c => acc * 10 + (c.toNat - '0'.toNat)) n

/-- The strings that are a decimal integer of a 64-bit `int`: an optional sign,
then one or more decimal digits and nothing else, the value between `-2^63`
and `2^63 - 1`. Written from the description of the format, not from `Atoi`. -/
def isDecimalInt (s : String) : Bool :=
  match s.data with
  | [] => false
  | c :: rest =>
    if c = '-' then
      !rest.isEmpty && rest.all Char.isDigit && decide (decimalValue 0 rest ≤ 2 ^ 63)
    else if c = '+' then
      !rest.isEmpty && rest.all Char.isDigit && decide (decimalValue 0 rest < 2 ^ 63)
    else
      (c :: rest).all Char.isDigit && decide (decimalValue 0 (c :: rest) < 2 ^ 63)

/-- The character of a decimal digit. -/
def digitChar (d : Nat) : Char := Char.ofNat ('0'.toNat + d)

/-- Decimal digits of `n`, most significant first (`formatBits` in base 10).
The first argument bounds the number of digits written; 20 cover `uint64`. -/
def formatBits : Nat → Nat → List Char
  | 0, _ => []
  | fuel + 1, n =>
    if n < 10 then [digitChar n] else formatBits fuel (n / 10) ++ [digitChar (n % 10)]

/-- The text `fmt.Sprintf("%d", v)` for an `int64` value `v`. -/
def formatInt (v : Int) : String :=
  if v < 0 then String.mk ('-' :: formatBits 20 v.natAbs) else String.mk (formatBits 20 v.natAbs)

/-! ## Server state and the detector -/

/-- Outcome of `detectFacesFunc.Call(args, ...)`: `nil`, an object that fails
`PyLong_Check`, or a Python integer with the value `PyLong_AsLong` reads. -/
inductive PyResult where
  | null
  | other
  | long (v : Int)
deriving DecidableEq, Repr

/-- The Python function `detect_faces`: outcome of invocation number `k`
(counted from 0 over the life of the process) on the given path. -/
abbrev Detector := Nat → JoinedPath → PyResult

/-- The mutable globals of the process: the map `ImageResult`, and the paths
handed to `detect_faces` so far, oldest first. -/
structure Server where
  ImageResult : Registry
  detectCalls : List JoinedPath

/-- The part of `DetectFace` after the Python call: classification of its result. -/
def classify : PyResult → Int × Option String
  | .null => (0, some "error call detect face function")
  | .other => (0, some "unexpected result type")
  | .long v => (v, none)

/-- The function `DetectFace(id, extension)`: one call of `detect_faces` on
`filepath.Join("uploads", id+extension)`; returns `(faceCount, err)`. -/
def DetectFace (det : Detector) (s : Server) (id extension : String) :
    (Int × Option String) × Server :=
  let path : JoinedPath := { dir := "uploads", name := id ++ extension }
  let result := det s.detectCalls.length path
  (classify result, { s with detectCalls := s.detectCalls ++ [path] })

/-! ## Handlers -/

/-- Inputs of one `Upload` request: what the form, the file system and
`uuid.New()` give. `none` in an error field means the step succeeded. -/
structure UploadRequest where
  formFileErr : Option String
  openErr : Option String
  readErr : Option String
  fileType : String
  seekErr : Option String
  id : String
  ext : String
  createErr : Option String
  copyErr : Option String

/-- The handler `Upload`: `fileType` is `http.DetectContentType(buffer)`, `id` is
`uuid.New().String()`, `ext` is `filepath.Ext(file.Filename)`. -/
def Upload (req : UploadRequest) (s : Server) : Reply UploadResponse × Server :=
  match req.formFileErr with
  | some e => (.json StatusBadRequest
      { Code := StatusBadRequest, Message := "error read file: " ++ e, ID := "" }, s)
  | none =>
  match req.openErr with
  | some e => (.json StatusBadRequest
      { Code := StatusBadRequest, Message := "error open file: " ++ e, ID := "" }, s)
  | none =>
  match req.readErr with
  | some e => (.json StatusInternalServerError
      { Code := StatusInternalServerError, Message := "error read file: " ++ e, ID := "" }, s)
  | none =>
  match imageType req.fileType with
  | none => (.json StatusBadRequest
      { Code := StatusUnsupportedMediaType, Message := "uploaded file must be an image", ID := "" }, s)
  | some _ =>
  match req.seekErr with
  | some e => (.json StatusInternalServerError
      { Code := StatusInternalServerError, Message := "error reset file pointer: " ++ e, ID := "" }, s)
  | none =>
  match req.createErr with
  | some e => (.json StatusInternalServerError
      { Code := StatusInternalServerError, Message := "error save file: " ++ e, ID := "" }, s)
  | none =>
  match req.copyErr with
  | some e => (.json StatusInternalServerError
      { Code := StatusInternalServerError, Message := "error save file: " ++ e, ID := "" }, s)
  | none =>
    let newImageData : ImageData :=
      { FileName := req.id, FileExtension := req.ext, FaceCount := 0, IsProcessed := false }
    (.json StatusOK { Code := StatusOK, Message := "image uploaded", ID := req.id },
      { s with ImageResult := s.ImageResult.set req.id newImageData })

/-- The handler `Check`. The assignments of the `err != nil` branch are kept: the branch
does not return, so the statements after it run as well. -/
def Check (det : Detector) (s : Server) (id : String) : Reply CheckResponse × Server :=
  let res : CheckResponse := { Code := 0, Message := "", FaceCount := 0 }
  match s.ImageResult id with
  | none =>
    (.json StatusNotFound { res with Code := StatusNotFound, Message := "image id not exist" }, s)
  | some val =>
    if val.IsProcessed then
      (.json StatusOK
        { res with Code := StatusOK, Message := "image id found", FaceCount := val.FaceCount }, s)
    else
      let ((faceCount, err), s1) := DetectFace det s val.FileName val.FileExtension
      let res1 : CheckResponse :=
        match err with
        | some e => { res with Code := StatusInternalServerError,
                               Message := "error face detect: " ++ e }
        | none => res
      let newData : ImageData :=
        { FileName := val.FileName, FileExtension := val.FileExtension,
          FaceCount := faceCount, IsProcessed := true }
      let s2 : Server := { s1 with ImageResult := s1.ImageResult.set id newData }
      (.json StatusOK
        { res1 with Code := StatusOK, Message := "image id found", FaceCount := faceCount }, s2)

/-- A `time.Time` as Unix seconds and the nanoseconds within the second. -/
structure GoTime where
  sec : Int
  nsec : Int
deriving DecidableEq, Repr

/-- The constant `time.Minute` in nanoseconds. -/
def Minute : Int := 60 * 1000000000

/-- Conversion to `int64`: the value modulo `2^64` in the signed range. -/
def wrapInt64 (v : Int) : Int := (v + 2 ^ 63) % 2 ^ 64 - 2 ^ 63

/-- The value `now.Add(d).Unix()` for a duration `d` in nanoseconds: `Add`
splits `d` into whole seconds and a remainder (both truncated towards zero) and
carries the nanoseconds. (The saturation of `Add` at the ends of the `int64` range of
seconds is not modelled.) -/
def unixAfterAdd (now : GoTime) (d : Int) : Int :=
  let dsec := Int.tdiv d 1000000000
  let nsec := now.nsec + Int.tmod d 1000000000
  let dsec := if 1000000000 ≤ nsec then dsec + 1 else if nsec < 0 then dsec - 1 else dsec
  now.sec + dsec

/-- The expiry `Result` computes: `URL_EXPIRY` minutes (15 when the variable does
not parse) after `now`, in Unix seconds. -/
def urlExpiration (env : String) (now : GoTime) : Int :=
  let timeExpiry : Int :=
    match Atoi env with
    | .ok v => v
    | .error _ => 15
  unixAfterAdd now (wrapInt64 (timeExpiry * Minute))

/-- The text `fmt.Sprintf("http://localhost:8000/image/%s?expired=%d", id, urlExpiration)`. -/
def signedURL (id : String) (urlExpiration : Int) : String :=
  "http://localhost:8000/image/" ++ id ++ "?expired=" ++ formatInt urlExpiration

/-- The handler `Result`; `env` is `os.Getenv("URL_EXPIRY")`, `now` is
`time.Now()`. As in `Check`, the `err != nil` branch does not return. -/
def Result (det : Detector) (env : String) (now : GoTime) (s : Server) (id : String) :
    Reply ResultResponse × Server :=
  let res : ResultResponse := { Code := 0, Message := "", ImageURL := "" }
  match s.ImageResult id with
  | none =>
    (.json StatusNotFound { res with Code := StatusNotFound, Message := "image id not exist" }, s)
  | some val =>
    let (res1, s2) : ResultResponse × Server :=
      if !val.IsProcessed then
        let ((faceCount, err), s1) := DetectFace det s val.FileName val.FileExtension
        let res1 : ResultResponse :=
          match err with
          | some e => { res with Code := StatusInternalServerError,
                                 Message := "error face detect: " ++ e }
          | none => res
        let newData : ImageData :=
          { FileName := val.FileName, FileExtension := val.FileExtension,
            FaceCount := faceCount, IsProcessed := true }
        (res1, { s1 with ImageResult := s1.ImageResult.set id newData })
      else (res, s)
    (.json StatusOK
      { res1 with Code := StatusOK, Message := "image id found",
                  ImageURL := signedURL id (urlExpiration env now) }, s2)

/-- The handler `ServeImage`; `expiry` is `c.QueryParam("expired")`, `now` is
`time.Now().Unix()`. The handler writes nothing. -/
def ServeImage (s : Server) (id : String) (expiry : String) (now : Int) : Reply ResultResponse :=
  let res : ResultResponse := { Code := 0, Message := "", ImageURL := "" }
  match s.ImageResult id with
  | none =>
    .json StatusNotFound { res with Code := StatusNotFound, Message := "image id not exist" }
  | some val =>
    match Atoi expiry with
    | .error err =>
      .json StatusBadRequest
        { res with Code := StatusBadRequest,
                   Message := "error convert expiration time: " ++ err.Error }
    | .ok expirationTime =>
      if now > expirationTime then
        .json StatusBadRequest { res with Code := StatusBadRequest, Message := "url expired" }
      else
        .file { dir := "uploads", name := id ++ val.FileExtension }

/-! ## Sequential runs of requests -/

/-- One request served by the process. -/
inductive Op where
  | upload (req : UploadRequest)
  | check (id : String)
  | result (env : String) (now : GoTime) (id : String)
  | serveImage (id expiry : String) (now : Int)

/-- The state the handler of a request leaves. `ServeImage` only replies. -/
def Op.apply (det : Detector) (s : Server) : Op → Server
  | .upload req => (Upload req s).2
  | .check id => (Check det s id).2
  | .result env now id => (Result det env now s id).2
  | .serveImage _ _ _ => s

/-- Requests served one after the other. -/
def runOps (det : Detector) (s : Server) (ops : List Op) : Server :=
  ops.foldl (Op.apply det) s

/-- Along the run, every `Upload` is given an id that is not in the map at that
moment (`uuid.New()` does not repeat an id). -/
def freshUploads (det : Detector) : Server → List Op → Bool
  | _, [] => true
  | s, op :: ops =>
    (match op with
      | .upload req => (s.ImageResult req.id).isNone
      | _ => true) && freshUploads det (op.apply det s) ops

/-- A request to `/check/:id` or to `/result/:id`, the id left out. -/
inductive Call where
  | check
  | result (env : String) (now : GoTime)
deriving DecidableEq, Repr

/-- The request a call is, for the id it is made on. -/
def Call.toOp (id : String) : Call → Op
  | .check => .check id
  | .result env now => .result env now id

/-- Calls on one id, served one after the other. -/
def serveCalls (det : Detector) (s : Server) (id : String) (calls : List Call) : Server :=
  runOps det s (calls.map (Call.toOp id))

/-! ## Concurrent calls on one id

Each handler runs in its own goroutine. A call of `Check` or `Result` touches
the shared state three times: it reads `ImageResult[id]`, it calls `DetectFace`
(the body of which holds `mu`, so two such calls never overlap), and it writes
`ImageResult[id]`. Nothing is held between the three, so the steps of different
calls interleave freely. Each step is taken here as indivisible: the schedules
below are the executions in which no two map accesses overlap in time. -/

/-- Where a call stands. `done` carries the face count the call has seen: the one
`Check` replies with, or the one `Result` writes; `none` when the call saw none. -/
inductive Phase where
  | start
  | fetched (val : ImageData)
  | detected (val : ImageData) (faceCount : Int) (err : Option String)
  | done (faceCount : Option Int)
deriving DecidableEq, Repr

/-- A call in progress. -/
structure Thread where
  call : Call
  phase : Phase
deriving DecidableEq, Repr

/-- The next atomic step of a call on `id`: the map read with the branches on
`ok` and `IsProcessed`, the `DetectFace` call, or the map write. -/
def Thread.step (det : Detector) (id : String) (s : Server) (t : Thread) : Server × Thread :=
  match t.phase with
  | .start =>
    match s.ImageResult id with
    | none => (s, { t with phase := .done none })
    | some val =>
      if val.IsProcessed then
        (s, { t with phase := .done (match t.call with
                                     | .check => some val.FaceCount
                                     | .result _ _ => none) })
      else (s, { t with phase := .fetched val })
  | .fetched val =>
    let ((faceCount, err), s1) := DetectFace det s val.FileName val.FileExtension
    (s1, { t with phase := .detected val faceCount err })
  | .detected val faceCount _ =>
    let newData : ImageData :=
      { FileName := val.FileName, FileExtension := val.FileExtension,
        FaceCount := faceCount, IsProcessed := true }
    ({ s with ImageResult := s.ImageResult.set id newData },
      { t with phase := .done (some faceCount) })
  | .done _ => (s, t)

/-- The call number `i` takes its next step; nothing happens when there is no such call. -/
def stepAt (det : Detector) (id : String) (cfg : Server × List Thread) (i : Nat) :
    Server × List Thread :=
  match cfg.2[i]? with
  | none => cfg
  | some t =>
    let (s1, t1) := t.step det id cfg.1
    (s1, cfg.2.set i t1)

/-- An interleaving: the calls take their steps in the order the schedule lists them. -/
def runSchedule (det : Detector) (id : String) (cfg : Server × List Thread)
    (sched : List Nat) : Server × List Thread :=
  sched.foldl (stepAt det id) cfg

/-- The calls before their first step. -/
def spawn (calls : List Call) : List Thread :=
  calls.map (fun c => { call := c, phase := .start })

/-! ## Concrete states used in the evaluations below -/

/-- One uploaded image `a`, not processed, and no detector call made yet. -/
def oneUploaded : Server :=
  { ImageResult := Registry.empty.set "a"
      { FileName := "a", FileExtension := ".png", FaceCount := 0, IsProcessed := false },
    detectCalls := [] }

/-- Two uploaded images `A` and `B`, not processed. -/
def twoUploaded : Server :=
  { ImageResult := (Registry.empty.set "A"
      { FileName := "A", FileExtension := ".png", FaceCount := 0, IsProcessed := false }).set "B"
      { FileName := "B", FileExtension := ".jpg", FaceCount := 0, IsProcessed := false },
    detectCalls := [] }

/-- A detector whose call fails (`Call` returns `nil`). -/
def failingDetector : Detector := fun _ _ => .null

/-- A detector that returns a value of the wrong type. -/
def wrongTypeDetector : Detector := fun _ _ => .other

/-- A detector that counts `k + 2` faces at its invocation number `k`. -/
def driftingDetector : Detector := fun k _ => .long (k + 2)

/-- A detector that always counts two faces. -/
def twoFacesDetector : Detector := fun _ _ => .long 2

/-- A successful upload of a PNG file under the id `a`. -/
def uploadA : UploadRequest :=
  { formFileErr := none, openErr := none, readErr := none, fileType := "image/png",
    seekErr := none, id := "a", ext := ".png", createErr := none, copyErr := none }

/-! ## Decimal rendering and parsing -/

theorem digitVal_digitChar (d : Nat) (h : d < 10) : digitVal (digitChar d) = some d := by
  interval_cases d <;> rfl

theorem digitChar_ne_sign (d : Nat) (h : d < 10) : digitChar d ≠ '-' ∧ digitChar d ≠ '+' := by
  interval_cases d <;> decide

theorem parseUintLoop_snoc (cs : List Char) (c : Char) (n : Nat) :
    parseUintLoop n (cs ++ [c]) =
      match parseUintLoop n cs with
      | .ok m => parseUintLoop m [c]
      | .error e => .error e := by
  induction cs generalizing n with
  | nil => simp [parseUintLoop]
  | cons x xs ih =>
    simp only [List.cons_append, parseUintLoop]
    cases digitVal x with
    | none => rfl
    | some d =>
      simp only
      split
      · rfl
      · exact ih _

theorem formatBits_ne_nil (fuel n : Nat) : formatBits (fuel + 1) n ≠ [] := by
  unfold formatBits
  split <;> simp

theorem formatBits_digits (fuel n : Nat) :
    ∀ c ∈ formatBits fuel n, ∃ d, d < 10 ∧ c = digitChar d := by
  induction fuel generalizing n with
  | zero => simp [formatBits]
  | succ k ih =>
    intro c hc
    unfold formatBits at hc
    split at hc
    · simp at hc; exact ⟨n, by assumption, hc⟩
    · rcases List.mem_append.1 hc with h | h
      · exact ih _ c h
      · simp at h; exact ⟨n % 10, Nat.mod_lt _ (by decide), h⟩

theorem parseUintLoop_formatBits (fuel n : Nat) (h1 : n < 10 ^ fuel) (h2 : n < 2 ^ 64) :
    parseUintLoop 0 (formatBits fuel n) = .ok n := by
  induction fuel generalizing n with
  | zero => simp at h1; subst h1; rfl
  | succ k ih =>
    unfold formatBits
    split
    · rename_i hn
      simp only [parseUintLoop, digitVal_digitChar n hn]
      simp only [Nat.zero_mul, Nat.zero_add]
      rw [if_neg (by omega)]
    · rename_i hn
      have hk : n / 10 < 10 ^ k := by
        rw [Nat.div_lt_iff_lt_mul (by decide)]
        rw [pow_succ] at h1; exact h1
      rw [parseUintLoop_snoc, ih (n / 10) hk (by omega)]
      simp only [parseUintLoop, digitVal_digitChar (n % 10) (Nat.mod_lt _ (by decide))]
      have : n / 10 * 10 + n % 10 = n := by omega
      rw [this, if_neg (by omega)]

theorem parseUint_formatBits (n : Nat) (h2 : n < 2 ^ 64) :
    parseUint (formatBits 20 n) = .ok n := by
  unfold parseUint
  rw [if_neg (formatBits_ne_nil 19 n)]
  exact parseUintLoop_formatBits 20 n (by norm_num at h2 ⊢; omega) h2

theorem parseInt_formatInt (t : Int) (h1 : -2 ^ 63 ≤ t) (h2 : t < 2 ^ 63) :
    parseInt (formatInt t).data = .ok t := by
  unfold formatInt
  by_cases ht : t < 0
  · rw [if_pos ht]
    have hab : t.natAbs ≤ 2 ^ 63 := by omega
    simp only [parseInt]
    simp [parseUint_formatBits t.natAbs (by omega)]
    rw [if_neg (by omega), abs_of_neg ht, neg_neg]
  · rw [if_neg ht]
    have hab : t.natAbs < 2 ^ 63 := by omega
    obtain ⟨c, rest, hcr⟩ : ∃ c rest, formatBits 20 t.natAbs = c :: rest := by
      cases h : formatBits 20 t.natAbs with
      | nil => exact absurd h (formatBits_ne_nil 19 _)
      | cons c rest => exact ⟨c, rest, rfl⟩
    obtain ⟨d, hd, hcd⟩ := formatBits_digits 20 t.natAbs c (by rw [hcr]; simp)
    have hsign := digitChar_ne_sign d hd
    rw [← hcd] at hsign
    have hp := parseUint_formatBits t.natAbs (by omega)
    rw [hcr] at hp
    simp only [hcr, parseInt]
    simp [hsign.1, hsign.2, hp]
    rw [if_neg (by omega), abs_of_nonneg (by omega)]

theorem Atoi_formatInt (t : Int) (h1 : -2 ^ 63 ≤ t) (h2 : t < 2 ^ 63) :
    Atoi (formatInt t) = .ok t := by
  unfold Atoi
  rw [parseInt_formatInt t h1 h2]

theorem digitVal_eq (c : Char) :
    digitVal c = if c.isDigit = true then some (c.toNat - '0'.toNat) else none := by
  unfold digitVal Char.isDigit
  have h0 : ('0' ≤ c) ↔ c.val ≥ 48 := by
    show ('0' : Char).val ≤ c.val ↔ _
    rfl
  have h9 : (c ≤ '9') ↔ c.val ≤ 57 := by
    show c.val ≤ ('9' : Char).val ↔ _
    rfl
  by_cases a : c.val ≥ 48 <;> by_cases b : c.val ≤ 57 <;> simp [h0, h9, a, b]

theorem decimalValue_cons (n : Nat) (c : Char) (cs : List Char) :
    decimalValue n (c :: cs) = decimalValue (n * 10 + (c.toNat - '0'.toNat)) cs := rfl

theorem decimalValue_ge (cs : List Char) (n : Nat) : n ≤ decimalValue n cs := by
  induction cs generalizing n with
  | nil => exact Nat.le_refl _
  | cons c cs ih =>
    rw [decimalValue_cons]
    have := ih (n * 10 + (c.toNat - '0'.toNat))
    omega

theorem parseUintLoop_digits (cs : List Char) (n : Nat) (hn : n < 2 ^ 64)
    (hall : cs.all Char.isDigit = true) :
    parseUintLoop n cs =
      if decimalValue n cs < 2 ^ 64 then .ok (decimalValue n cs) else .error .outOfRange := by
  induction cs generalizing n with
  | nil =>
    have : decimalValue n [] = n := rfl
    rw [this, if_pos hn]; rfl
  | cons c cs ih =>
    simp only [List.all_cons, Bool.and_eq_true] at hall
    rw [decimalValue_cons]
    simp only [parseUintLoop, digitVal_eq, hall.1, if_true]
    have hge := decimalValue_ge cs (n * 10 + (c.toNat - '0'.toNat))
    generalize n * 10 + (c.toNat - '0'.toNat) = m at hge ⊢
    by_cases hov : 2 ^ 64 ≤ m
    · rw [if_pos hov, if_neg (by omega)]
    · rw [if_neg hov, ih m (by omega) hall.2]

theorem parseUintLoop_nondigit (cs : List Char) (n : Nat) (hall : cs.all Char.isDigit = false) :
    ∃ e, parseUintLoop n cs = .error e := by
  induction cs generalizing n with
  | nil => simp at hall
  | cons c cs ih =>
    simp only [parseUintLoop, digitVal_eq]
    by_cases hc : c.isDigit = true
    · simp only [hc, if_true]
      split
      · exact ⟨_, rfl⟩
      · apply ih
        simpa [hc] using hall
    · simp only [hc]
      exact ⟨_, rfl⟩

/-- The function `ParseUint` in the words of the format: it returns a value exactly on the
non-empty strings of digits whose value fits `uint64`, and the value is theirs. -/
theorem parseUint_ok_iff (cs : List Char) (v : Nat) :
    parseUint cs = .ok v ↔
      (cs ≠ [] ∧ cs.all Char.isDigit = true ∧ decimalValue 0 cs < 2 ^ 64 ∧ v = decimalValue 0 cs) := by
  unfold parseUint
  by_cases hnil : cs = []
  · simp [hnil]
  · rw [if_neg hnil]
    cases hall : cs.all Char.isDigit with
    | false =>
      obtain ⟨e, he⟩ := parseUintLoop_nondigit cs 0 hall
      rw [he]; simp
    | true =>
      rw [parseUintLoop_digits cs 0 (by norm_num) hall]
      by_cases hlt : decimalValue 0 cs < 2 ^ 64
      · rw [if_pos hlt]
        constructor
        · intro h; injection h with h; exact ⟨hnil, rfl, hlt, h.symm⟩
        · rintro ⟨-, -, -, h⟩; rw [h]
      · rw [if_neg hlt]
        constructor
        · intro h; cases h
        · rintro ⟨-, -, h, -⟩; exact absurd h hlt

theorem parseUint_error_iff (cs : List Char) :
    (∃ e, parseUint cs = .error e) ↔
      ¬ (cs ≠ [] ∧ cs.all Char.isDigit = true ∧ decimalValue 0 cs < 2 ^ 64) := by
  constructor
  · rintro ⟨e, he⟩ ⟨h1, h2, h3⟩
    have := (parseUint_ok_iff cs _).2 ⟨h1, h2, h3, rfl⟩
    rw [he] at this; cases this
  · intro h
    cases hp : parseUint cs with
    | error e => exact ⟨e, rfl⟩
    | ok v =>
      have := (parseUint_ok_iff cs v).1 hp
      exact absurd ⟨this.1, this.2.1, this.2.2.1⟩ h

theorem parseUint_ok_bool (rest : List Char) (P : Nat → Prop) [DecidablePred P]
    (hP : ∀ n, P n → n < 2 ^ 64) :
    (∃ un, parseUint rest = .ok un ∧ P un) ↔
      (!rest.isEmpty && rest.all Char.isDigit && decide (P (decimalValue 0 rest))) = true := by
  simp only [Bool.and_eq_true, Bool.not_eq_true', decide_eq_true_eq, List.isEmpty_eq_false]
  constructor
  · rintro ⟨un, hun, hp⟩
    obtain ⟨h1, h2, -, h4⟩ := (parseUint_ok_iff rest un).1 hun
    subst h4
    exact ⟨⟨h1, h2⟩, hp⟩
  · rintro ⟨⟨h1, h2⟩, hp⟩
    exact ⟨_, (parseUint_ok_iff rest _).2 ⟨h1, h2, hP _ hp, rfl⟩, hp⟩

/-- The function `Atoi` returns a value exactly on the decimal integers of a 64-bit `int`. -/
theorem Atoi_ok_iff (s : String) : (∃ v, Atoi s = .ok v) ↔ isDecimalInt s = true := by
  unfold Atoi isDecimalInt parseInt
  cases hs : s.data with
  | nil => simp
  | cons c rest =>
    simp only
    by_cases hm : c = '-'
    · subst hm
      simp only [if_true, or_true, decide_True]
      rw [← parseUint_ok_bool rest (fun n => n ≤ 2 ^ 63) (fun n hn => by omega)]
      cases hp : parseUint rest with
      | error e => simp
      | ok un =>
        by_cases hu : 9223372036854775808 < un
        · simp [hu]
        · simp [hu]; omega
    · by_cases hpl : c = '+'
      · subst hpl
        simp only [if_true, true_or, hm, if_false, decide_False]
        rw [← parseUint_ok_bool rest (fun n => n < 2 ^ 63) (fun n hn => by omega)]
        cases hp : parseUint rest with
        | error e => simp
        | ok un =>
          by_cases hu : 9223372036854775808 ≤ un
          · simp [hu]
          · simp [hu]; omega
      · simp only [hm, hpl, or_self, if_false, decide_False]
        have hb := parseUint_ok_bool (c :: rest) (fun n => n < 2 ^ 63) (fun n hn => by omega)
        simp only [List.isEmpty_cons, Bool.not_false, Bool.true_and] at hb
        rw [← hb]
        cases hp : parseUint (c :: rest) with
        | error e => simp
        | ok un =>
          by_cases hu : 9223372036854775808 ≤ un
          · simp [hu]
          · simp [hu]; omega

theorem Atoi_error_of_not_decimal (s : String) (h : isDecimalInt s = false) :
    ∃ e, Atoi s = .error e := by
  cases ha : Atoi s with
  | error e => exact ⟨e, rfl⟩
  | ok v =>
    have := (Atoi_ok_iff s).1 ⟨v, ha⟩
    rw [h] at this; cases this

/-! ## Unknown ids, malformed and expired tokens -/

/-- C7. For an id that is not in the map, `Check`, `Result` and `ServeImage` each
reply 404 with code 404 and the message "image id not exist"; `Check` and
`Result` hand back the server state they were given, so the detector is not
called and no record is created. -/
theorem unknown_id_is_not_found (det : Detector) (env : String) (now : GoTime) (s : Server)
    (id expiry : String) (nowUnix : Int) (h : s.ImageResult id = none) :
    Check det s id
        = (.json 404 { Code := 404, Message := "image id not exist", FaceCount := 0 }, s) ∧
    Result det env now s id
        = (.json 404 { Code := 404, Message := "image id not exist", ImageURL := "" }, s) ∧
    ServeImage s id expiry nowUnix
        = .json 404 { Code := 404, Message := "image id not exist", ImageURL := "" } := by
  refine ⟨?_, ?_, ?_⟩
  · simp only [Check, h]; rfl
  · simp only [Result, h]; rfl
  · simp only [ServeImage, h]; rfl

theorem unknown_id_is_not_found_witness :
    oneUploaded.ImageResult "b" = none ∧
    (Check failingDetector oneUploaded "b"
        = (.json 404 { Code := 404, Message := "image id not exist", FaceCount := 0 },
            oneUploaded) ∧
    Result failingDetector "" ⟨0, 0⟩ oneUploaded "b"
        = (.json 404 { Code := 404, Message := "image id not exist", ImageURL := "" },
            oneUploaded) ∧
    ServeImage oneUploaded "b" "5" 0
        = .json 404 { Code := 404, Message := "image id not exist", ImageURL := "" }) :=
  ⟨by decide, unknown_id_is_not_found failingDetector "" ⟨0, 0⟩ oneUploaded "b" "5" 0 (by decide)⟩

/-- C8. For an id in the map and an `expired` parameter that is not a decimal
integer of a 64-bit `int` (the empty string, a string with a character that is
not a digit, digits out of range), `Atoi` fails and `ServeImage` replies 400
with code 400 and the message "error convert expiration time: strconv.Atoi:
parsing ", then the quoted parameter, then ": " and the text of the error kind
(invalid syntax or value out of range), whatever the current time; the file is
not served. The quoted text itself is left open. -/
theorem malformed_token_rejected (s : Server) (id expiry : String) (val : ImageData) (now : Int)
    (hrec : s.ImageResult id = some val) (hbad : isDecimalInt expiry = false) :
    ∃ err quoted, Atoi expiry = .error err ∧
      ServeImage s id expiry now
        = .json 400
            { Code := 400,
              Message := "error convert expiration time: strconv.Atoi: parsing "
                ++ quoted ++ ": " ++ err.Err.text,
              ImageURL := "" } := by
  obtain ⟨err, herr⟩ := Atoi_error_of_not_decimal expiry hbad
  have hfunc : err.Func = "Atoi" := by
    unfold Atoi at herr
    cases hp : parseInt expiry.data with
    | ok v => rw [hp] at herr; cases herr
    | error e =>
      rw [hp] at herr
      injection herr with herr
      rw [← herr]
  refine ⟨err, strconvQuote err.Num, herr, ?_⟩
  simp only [ServeImage, hrec, herr, NumError.Error, hfunc]
  simp only [StatusBadRequest, String.append_assoc]
  rfl

theorem malformed_token_rejected_witness :
    (oneUploaded.ImageResult "a" = some ⟨"a", ".png", 0, false⟩ ∧
      isDecimalInt "9223372036854775808" = false) ∧
    ∃ err quoted, Atoi "9223372036854775808" = .error err ∧
      ServeImage oneUploaded "a" "9223372036854775808" 0
        = .json 400
            { Code := 400,
              Message := "error convert expiration time: strconv.Atoi: parsing "
                ++ quoted ++ ": " ++ err.Err.text,
              ImageURL := "" } :=
  ⟨⟨by decide, by decide⟩,
    malformed_token_rejected oneUploaded "a" "9223372036854775808" ⟨"a", ".png", 0, false⟩ 0
      (by decide) (by decide)⟩

/-- C4. For an id in the map and a token that `Atoi` reads as `e`, `ServeImage`
replies 400 "url expired" exactly when `now > e`, and otherwise serves
`uploads/<id><ext>`; in particular it serves the file at `now = e - 1` and at
`now = e`. -/
theorem expiry_boundary (s : Server) (id expiry : String) (val : ImageData) (e now : Int)
    (hrec : s.ImageResult id = some val) (htok : Atoi expiry = .ok e) :
    (ServeImage s id expiry now
        = .json 400 { Code := 400, Message := "url expired", ImageURL := "" } ↔ now > e) ∧
    (now ≤ e → ServeImage s id expiry now
        = .file { dir := "uploads", name := id ++ val.FileExtension }) ∧
    ServeImage s id expiry (e - 1) = .file { dir := "uploads", name := id ++ val.FileExtension } ∧
    ServeImage s id expiry e = .file { dir := "uploads", name := id ++ val.FileExtension } := by
  have key : ∀ n : Int, ServeImage s id expiry n =
      if n > e then .json 400 { Code := 400, Message := "url expired", ImageURL := "" }
      else .file { dir := "uploads", name := id ++ val.FileExtension } := by
    intro n
    simp only [ServeImage, hrec, htok]; rfl
  refine ⟨?_, ?_, ?_, ?_⟩
  · rw [key]
    by_cases h : now > e
    · simp [h]
    · simp [h]
  · intro h
    rw [key, if_neg (by omega)]
  · rw [key, if_neg (by omega)]
  · rw [key, if_neg (by omega)]

theorem expiry_boundary_witness :
    (oneUploaded.ImageResult "a" = some ⟨"a", ".png", 0, false⟩ ∧ Atoi "1900" = .ok 1900) ∧
    ((ServeImage oneUploaded "a" "1900" 1901
        = .json 400 { Code := 400, Message := "url expired", ImageURL := "" } ↔ 1901 > (1900 : Int)) ∧
    ((1901 : Int) ≤ 1900 → ServeImage oneUploaded "a" "1900" 1901
        = .file { dir := "uploads", name := "a" ++ ".png" }) ∧
    ServeImage oneUploaded "a" "1900" (1900 - 1) = .file { dir := "uploads", name := "a" ++ ".png" } ∧
    ServeImage oneUploaded "a" "1900" 1900 = .file { dir := "uploads", name := "a" ++ ".png" }) :=
  ⟨⟨by decide, by rfl⟩,
    expiry_boundary oneUploaded "a" "1900" ⟨"a", ".png", 0, false⟩ 1900 1901 (by decide) (by rfl)⟩

/-! ## The token -/

/-- C6. For an id and an expiry `t` in the range of `int64`, the URL `Result`
builds is `/image/<id>` with the query `expired=` followed by the decimal
rendering of `t`; `Atoi` reads that rendering back as `t` without error, and
`ServeImage`, given the id and that parameter, compares the current time with
exactly `t`. -/
theorem token_round_trip (id : String) (t : Int) (hlo : -2 ^ 63 ≤ t) (hhi : t < 2 ^ 63) :
    signedURL id t = "http://localhost:8000/image/" ++ id ++ "?expired=" ++ formatInt t ∧
    Atoi (formatInt t) = .ok t ∧
    ∀ (s : Server) (val : ImageData) (now : Int), s.ImageResult id = some val →
      ServeImage s id (formatInt t) now =
        if now > t then .json 400 { Code := 400, Message := "url expired", ImageURL := "" }
        else .file { dir := "uploads", name := id ++ val.FileExtension } := by
  refine ⟨rfl, Atoi_formatInt t hlo hhi, ?_⟩
  intro s val now hrec
  simp only [ServeImage, hrec, Atoi_formatInt t hlo hhi]; rfl

theorem token_round_trip_witness :
    (-2 ^ 63 ≤ (-9223372036854775808 : Int) ∧ (-9223372036854775808 : Int) < 2 ^ 63) ∧
    (signedURL "a" (-9223372036854775808)
        = "http://localhost:8000/image/" ++ "a" ++ "?expired=" ++ formatInt (-9223372036854775808) ∧
    Atoi (formatInt (-9223372036854775808)) = .ok (-9223372036854775808) ∧
    ∀ (s : Server) (val : ImageData) (now : Int), s.ImageResult "a" = some val →
      ServeImage s "a" (formatInt (-9223372036854775808)) now =
        if now > -9223372036854775808 then
          .json 400 { Code := 400, Message := "url expired", ImageURL := "" }
        else .file { dir := "uploads", name := "a" ++ val.FileExtension }) :=
  ⟨⟨by decide, by decide⟩, token_round_trip "a" (-9223372036854775808) (by decide) (by decide)⟩

/-- C5, as stated, fails: the URL `Result` issues for `A` carries `expired=1900`,
and `ServeImage` asked for `B` with that parameter before the expiry serves the
file of `B` instead of replying 404. -/
theorem token_of_A_serves_B :
    (Result twoFacesDetector "" ⟨1000, 0⟩ twoUploaded "A").1
      = .json 200 { Code := 200, Message := "image id found",
                    ImageURL := "http://localhost:8000/image/A?expired=1900" } ∧
    ServeImage (Result twoFacesDetector "" ⟨1000, 0⟩ twoUploaded "A").2 "B" "1900" 1000
      = .file { dir := "uploads", name := "B.jpg" } ∧
    ServeImage (Result twoFacesDetector "" ⟨1000, 0⟩ twoUploaded "A").2 "B" "1900" 1000
      ≠ .json 404 { Code := 404, Message := "image id not exist", ImageURL := "" } := by
  decide

theorem Result_reply (det : Detector) (env : String) (now : GoTime) (s : Server) (id : String)
    (val : ImageData) (h : s.ImageResult id = some val) :
    (Result det env now s id).1
      = .json 200 { Code := 200, Message := "image id found",
                    ImageURL := signedURL id (urlExpiration env now) } := by
  simp only [Result, h]
  cases val.IsProcessed <;> rfl

theorem Result_other (det : Detector) (env : String) (now : GoTime) (s : Server) (id k : String)
    (h : k ≠ id) : (Result det env now s id).2.ImageResult k = s.ImageResult k := by
  unfold Result
  cases hrec : s.ImageResult id with
  | none => rfl
  | some val =>
    cases hp : val.IsProcessed with
    | true => simp [hp]
    | false => simp [hp, DetectFace, Registry.set, h]

/-- C5, amended. For two distinct ids `A` and `B` in the map, the URL `Result`
issues for `A` carries the expiry and nothing else; `ServeImage` asked for `B`
with that `expired` parameter, at a time not after the expiry, serves
`uploads/<B><ext of B>`. -/
theorem token_carries_only_expiry (det : Detector) (env : String) (now : GoTime) (s : Server)
    (A B : String) (valA valB : ImageData) (nowUnix : Int)
    (hne : A ≠ B) (hA : s.ImageResult A = some valA) (hB : s.ImageResult B = some valB)
    (hlo : -2 ^ 63 ≤ urlExpiration env now) (hhi : urlExpiration env now < 2 ^ 63)
    (hlive : nowUnix ≤ urlExpiration env now) :
    (Result det env now s A).1
      = .json 200 { Code := 200, Message := "image id found",
                    ImageURL := signedURL A (urlExpiration env now) } ∧
    ServeImage (Result det env now s A).2 B (formatInt (urlExpiration env now)) nowUnix
      = .file { dir := "uploads", name := B ++ valB.FileExtension } := by
  refine ⟨Result_reply det env now s A valA hA, ?_⟩
  have hB2 : (Result det env now s A).2.ImageResult B = some valB := by
    rw [Result_other det env now s A B (Ne.symm hne), hB]
  simp only [ServeImage, hB2, Atoi_formatInt _ hlo hhi]
  rw [if_neg (by omega)]

theorem token_carries_only_expiry_witness :
    ("A" ≠ "B" ∧ twoUploaded.ImageResult "A" = some ⟨"A", ".png", 0, false⟩ ∧
      twoUploaded.ImageResult "B" = some ⟨"B", ".jpg", 0, false⟩ ∧
      -2 ^ 63 ≤ urlExpiration "" ⟨1000, 0⟩ ∧ urlExpiration "" ⟨1000, 0⟩ < 2 ^ 63 ∧
      (1000 : Int) ≤ urlExpiration "" ⟨1000, 0⟩) ∧
    ((Result twoFacesDetector "" ⟨1000, 0⟩ twoUploaded "A").1
      = .json 200 { Code := 200, Message := "image id found",
                    ImageURL := signedURL "A" (urlExpiration "" ⟨1000, 0⟩) } ∧
    ServeImage (Result twoFacesDetector "" ⟨1000, 0⟩ twoUploaded "A").2 "B"
        (formatInt (urlExpiration "" ⟨1000, 0⟩)) 1000
      = .file { dir := "uploads", name := "B" ++ ".jpg" }) :=
  ⟨⟨by decide, by decide, by decide, by decide, by decide, by decide⟩,
    token_carries_only_expiry twoFacesDetector "" ⟨1000, 0⟩ twoUploaded "A" "B"
      ⟨"A", ".png", 0, false⟩ ⟨"B", ".jpg", 0, false⟩ 1000
      (by decide) (by decide) (by decide) (by decide) (by decide) (by decide)⟩

/-! ## A failed detection -/

/-- C1 on the code: with a detector whose call fails, `DetectFace` returns an
error, and yet `Check` and `Result` each leave the record of `a` with
`IsProcessed = true` and `FaceCount = 0`; a later `Check`, given a detector that
would count two faces, does not call it and replies with the stored 0. -/
theorem failed_detection_marks_processed :
    (DetectFace failingDetector oneUploaded "a" ".png").1
      = (0, some "error call detect face function") ∧
    (Check failingDetector oneUploaded "a").2.ImageResult "a"
      = some { FileName := "a", FileExtension := ".png", FaceCount := 0, IsProcessed := true } ∧
    (Result failingDetector "" ⟨1000, 0⟩ oneUploaded "a").2.ImageResult "a"
      = some { FileName := "a", FileExtension := ".png", FaceCount := 0, IsProcessed := true } ∧
    (Check twoFacesDetector (Check failingDetector oneUploaded "a").2 "a").1
      = .json 200 { Code := 200, Message := "image id found", FaceCount := 0 } ∧
    (Check twoFacesDetector (Check failingDetector oneUploaded "a").2 "a").2.detectCalls
      = (Check failingDetector oneUploaded "a").2.detectCalls := by
  decide

/-- C2 on the code: when the detector call fails, or returns a value that is
not an integer, `DetectFace` returns an error and `Check` replies 200 with code
200, the message "image id found" and `face_count` 0. -/
theorem failed_detection_replied_as_success :
    (DetectFace failingDetector oneUploaded "a" ".png").1
      = (0, some "error call detect face function") ∧
    (Check failingDetector oneUploaded "a").1
      = .json 200 { Code := 200, Message := "image id found", FaceCount := 0 } ∧
    (DetectFace wrongTypeDetector oneUploaded "a" ".png").1
      = (0, some "unexpected result type") ∧
    (Check wrongTypeDetector oneUploaded "a").1
      = .json 200 { Code := 200, Message := "image id found", FaceCount := 0 } := by
  decide

/-! ## What one call of `Check` or `Result` does to the state -/

/-- The path `DetectFace` hands to the detector for a record. -/
theorem DetectFace_eq (det : Detector) (s : Server) (id ext : String) :
    DetectFace det s id ext =
      (classify (det s.detectCalls.length { dir := "uploads", name := id ++ ext }),
        { s with detectCalls := s.detectCalls ++ [{ dir := "uploads", name := id ++ ext }] }) :=
  rfl

theorem Check_processed (det : Detector) (s : Server) (id : String) (val : ImageData)
    (h : s.ImageResult id = some val) (hp : val.IsProcessed = true) :
    Check det s id
      = (.json 200 { Code := 200, Message := "image id found", FaceCount := val.FaceCount }, s) := by
  simp only [Check, h, hp]; rfl

theorem Check_unprocessed (det : Detector) (s : Server) (id : String) (val : ImageData)
    (h : s.ImageResult id = some val) (hp : val.IsProcessed = false) :
    Check det s id
      = (.json 200 { Code := 200, Message := "image id found",
                     FaceCount := (classify (det s.detectCalls.length
                        { dir := "uploads", name := val.FileName ++ val.FileExtension })).1 },
         { ImageResult := s.ImageResult.set id
             { FileName := val.FileName, FileExtension := val.FileExtension,
               FaceCount := (classify (det s.detectCalls.length
                  { dir := "uploads", name := val.FileName ++ val.FileExtension })).1,
               IsProcessed := true },
           detectCalls := s.detectCalls ++
             [{ dir := "uploads", name := val.FileName ++ val.FileExtension }] }) := by
  simp only [Check, h, hp, DetectFace_eq]; rfl

theorem Result_processed (det : Detector) (env : String) (now : GoTime) (s : Server) (id : String)
    (val : ImageData) (h : s.ImageResult id = some val) (hp : val.IsProcessed = true) :
    (Result det env now s id).2 = s := by
  simp only [Result, h, hp]; rfl

theorem Result_unprocessed (det : Detector) (env : String) (now : GoTime) (s : Server)
    (id : String) (val : ImageData)
    (h : s.ImageResult id = some val) (hp : val.IsProcessed = false) :
    (Result det env now s id).2
      = { ImageResult := s.ImageResult.set id
             { FileName := val.FileName, FileExtension := val.FileExtension,
               FaceCount := (classify (det s.detectCalls.length
                  { dir := "uploads", name := val.FileName ++ val.FileExtension })).1,
               IsProcessed := true },
           detectCalls := s.detectCalls ++
             [{ dir := "uploads", name := val.FileName ++ val.FileExtension }] } := by
  simp only [Result, h, hp, DetectFace_eq]; rfl

theorem Check_other (det : Detector) (s : Server) (id k : String) (h : k ≠ id) :
    (Check det s id).2.ImageResult k = s.ImageResult k := by
  cases hrec : s.ImageResult id with
  | none => simp only [Check, hrec]
  | some val =>
    cases hp : val.IsProcessed with
    | true => rw [Check_processed det s id val hrec hp]
    | false => rw [Check_unprocessed det s id val hrec hp]; simp [Registry.set, h]

theorem Registry.set_same (r : Registry) (id : String) (d : ImageData) : r.set id d id = some d := by
  simp [Registry.set]

/-- A call on a processed record changes nothing. -/
theorem Call_processed (det : Detector) (s : Server) (id : String) (val : ImageData) (c : Call)
    (h : s.ImageResult id = some val) (hp : val.IsProcessed = true) :
    (c.toOp id).apply det s = s := by
  cases c with
  | check => simp only [Call.toOp, Op.apply, Check_processed det s id val h hp]
  | result env now => simp only [Call.toOp, Op.apply, Result_processed det env now s id val h hp]

/-- A call on a record that is not processed calls the detector once and stores the count. -/
theorem Call_unprocessed (det : Detector) (s : Server) (id : String) (val : ImageData) (c : Call)
    (h : s.ImageResult id = some val) (hp : val.IsProcessed = false) :
    (c.toOp id).apply det s
      = { ImageResult := s.ImageResult.set id
             { FileName := val.FileName, FileExtension := val.FileExtension,
               FaceCount := (classify (det s.detectCalls.length
                  { dir := "uploads", name := val.FileName ++ val.FileExtension })).1,
               IsProcessed := true },
           detectCalls := s.detectCalls ++
             [{ dir := "uploads", name := val.FileName ++ val.FileExtension }] } := by
  cases c with
  | check => simp only [Call.toOp, Op.apply, Check_unprocessed det s id val h hp]
  | result env now => simp only [Call.toOp, Op.apply, Result_unprocessed det env now s id val h hp]

theorem serveCalls_nil (det : Detector) (s : Server) (id : String) : serveCalls det s id [] = s :=
  rfl

theorem serveCalls_cons (det : Detector) (s : Server) (id : String) (c : Call) (cs : List Call) :
    serveCalls det s id (c :: cs) = serveCalls det ((c.toOp id).apply det s) id cs := rfl

theorem serveCalls_processed (det : Detector) (s : Server) (id : String) (val : ImageData)
    (calls : List Call) (h : s.ImageResult id = some val) (hp : val.IsProcessed = true) :
    serveCalls det s id calls = s := by
  induction calls with
  | nil => rfl
  | cons c cs ih => rw [serveCalls_cons, Call_processed det s id val c h hp, ih]

/-- Calls on a record that is not processed: after the first, the state is fixed. -/
theorem serveCalls_unprocessed (det : Detector) (s : Server) (id : String) (val : ImageData)
    (c : Call) (cs : List Call) (h : s.ImageResult id = some val) (hp : val.IsProcessed = false) :
    serveCalls det s id (c :: cs)
      = { ImageResult := s.ImageResult.set id
             { FileName := val.FileName, FileExtension := val.FileExtension,
               FaceCount := (classify (det s.detectCalls.length
                  { dir := "uploads", name := val.FileName ++ val.FileExtension })).1,
               IsProcessed := true },
           detectCalls := s.detectCalls ++
             [{ dir := "uploads", name := val.FileName ++ val.FileExtension }] } := by
  rw [serveCalls_cons, Call_unprocessed det s id val c h hp]
  exact serveCalls_processed det _ id _ cs (Registry.set_same _ _ _) rfl

/-! ## Detection is made once -/

/-- C3. For an id in the map and any number of `Check` and `Result` calls served
one after the other, the detector is called at most once. If, while the calls
`pre` were served, the detector was called and returned the integer `v`, then
after any further calls `post`, whatever the detector would return then, a
`Check` replies 200 with `face_count = v` and changes nothing. If the record
was processed from the start, every `Check` replies with the stored count. -/
theorem idempotent_detection (det1 det2 det3 : Detector) (s : Server) (id : String)
    (val : ImageData) (calls pre post : List Call) (h : s.ImageResult id = some val) :
    (serveCalls det1 s id calls).detectCalls.length ≤ s.detectCalls.length + 1 ∧
    (∀ (p : JoinedPath) (v : Int),
      (serveCalls det1 s id pre).detectCalls = s.detectCalls ++ [p] →
      det1 s.detectCalls.length p = .long v →
      Check det3 (serveCalls det2 (serveCalls det1 s id pre) id post) id
        = (.json 200 { Code := 200, Message := "image id found", FaceCount := v },
            serveCalls det2 (serveCalls det1 s id pre) id post)) ∧
    (val.IsProcessed = true →
      Check det3 (serveCalls det1 s id calls) id
        = (.json 200 { Code := 200, Message := "image id found", FaceCount := val.FaceCount },
            serveCalls det1 s id calls)) := by
  refine ⟨?_, ?_, ?_⟩
  · cases hp : val.IsProcessed with
    | true => rw [serveCalls_processed det1 s id val calls h hp]; omega
    | false =>
      cases calls with
      | nil => rw [serveCalls_nil]; omega
      | cons c cs => rw [serveCalls_unprocessed det1 s id val c cs h hp]; simp
  · intro p v hlog hdet
    cases hp : val.IsProcessed with
    | true =>
      rw [serveCalls_processed det1 s id val pre h hp] at hlog
      have := congrArg List.length hlog
      simp at this
    | false =>
      cases pre with
      | nil =>
        rw [serveCalls_nil] at hlog
        have := congrArg List.length hlog
        simp at this
      | cons c cs =>
        rw [serveCalls_unprocessed det1 s id val c cs h hp] at hlog ⊢
        have hp2 : p = { dir := "uploads", name := val.FileName ++ val.FileExtension } := by
          have := List.append_cancel_left hlog
          simpa using this.symm
        rw [← hp2, hdet]
        rw [serveCalls_processed det2 _ id _ post (Registry.set_same _ _ _) rfl]
        rw [Check_processed det3 _ id _ (Registry.set_same _ _ _) rfl]
        rfl
  · intro hp
    rw [serveCalls_processed det1 s id val calls h hp]
    exact Check_processed det3 s id val h hp

theorem idempotent_detection_witness :
    oneUploaded.ImageResult "a" = some ⟨"a", ".png", 0, false⟩ ∧
    (serveCalls driftingDetector oneUploaded "a" [.check]).detectCalls
      = oneUploaded.detectCalls ++ [{ dir := "uploads", name := "a.png" }] ∧
    driftingDetector oneUploaded.detectCalls.length { dir := "uploads", name := "a.png" }
      = .long 2 ∧
    (serveCalls driftingDetector oneUploaded "a"
        [.check, .result "" ⟨1000, 0⟩, .check]).detectCalls.length
      ≤ oneUploaded.detectCalls.length + 1 ∧
    Check failingDetector
        (serveCalls twoFacesDetector (serveCalls driftingDetector oneUploaded "a" [.check]) "a"
          [.result "" ⟨1000, 0⟩, .check]) "a"
      = (.json 200 { Code := 200, Message := "image id found", FaceCount := 2 },
          serveCalls twoFacesDetector (serveCalls driftingDetector oneUploaded "a" [.check]) "a"
            [.result "" ⟨1000, 0⟩, .check]) :=
  ⟨by decide, by decide, by decide,
    (idempotent_detection driftingDetector twoFacesDetector failingDetector oneUploaded "a"
      ⟨"a", ".png", 0, false⟩ [.check, .result "" ⟨1000, 0⟩, .check] [.check]
      [.result "" ⟨1000, 0⟩, .check] (by decide)).1,
    (idempotent_detection driftingDetector twoFacesDetector failingDetector oneUploaded "a"
      ⟨"a", ".png", 0, false⟩ [.check, .result "" ⟨1000, 0⟩, .check] [.check]
      [.result "" ⟨1000, 0⟩, .check] (by decide)).2.1
      { dir := "uploads", name := "a.png" } 2 (by decide) (by decide)⟩

/-! ## The record of an image along a run -/

/-- The handler `Upload` either leaves the state as it is or adds the new record. -/
theorem Upload_state (req : UploadRequest) (s : Server) :
    (Upload req s).2 = s ∨
    (Upload req s).2 =
      { ImageResult := s.ImageResult.set req.id
          { FileName := req.id, FileExtension := req.ext, FaceCount := 0, IsProcessed := false },
        detectCalls := s.detectCalls } := by
  unfold Upload
  repeat' split
  all_goals first
    | exact Or.inl rfl
    | exact Or.inr rfl

/-- A reply 200 of `Upload` means the record was added. -/
theorem Upload_ok (req : UploadRequest) (s : Server)
    (h : (Upload req s).1 = .json 200 { Code := 200, Message := "image uploaded", ID := req.id }) :
    (Upload req s).2 =
      { ImageResult := s.ImageResult.set req.id
          { FileName := req.id, FileExtension := req.ext, FaceCount := 0, IsProcessed := false },
        detectCalls := s.detectCalls } := by
  unfold Upload at h ⊢
  repeat' split at h
  all_goals first
    | (exfalso; revert h; simp [StatusBadRequest, StatusInternalServerError]; done)
    | skip
  simp only [*]

/-- One request keeps every record of the map: the record is still there with
its file name and extension, and a processed record is not changed at all. -/
theorem Op_keeps (det : Detector) (s : Server) (op : Op) (id : String) (r : ImageData)
    (h : s.ImageResult id = some r)
    (hf : ∀ req, op = .upload req → s.ImageResult req.id = none) :
    ∃ r2, (op.apply det s).ImageResult id = some r2 ∧ r2.FileName = r.FileName ∧
      r2.FileExtension = r.FileExtension ∧ (r.IsProcessed = true → r2 = r) := by
  cases op with
  | upload req =>
    have hne : id ≠ req.id := by
      intro heq
      have := hf req rfl
      rw [← heq, h] at this
      cases this
    refine ⟨r, ?_, rfl, rfl, fun _ => rfl⟩
    simp only [Op.apply]
    rcases Upload_state req s with hs | hs
    · rw [hs, h]
    · rw [hs]; simp [Registry.set, hne, h]
  | check k =>
    simp only [Op.apply]
    by_cases hk : id = k
    · subst hk
      cases hp : r.IsProcessed with
      | true =>
        rw [Check_processed det s id r h hp]
        exact ⟨r, h, rfl, rfl, fun _ => rfl⟩
      | false =>
        rw [Check_unprocessed det s id r h hp]
        exact ⟨_, Registry.set_same _ _ _, rfl, rfl, fun hc => by cases hc⟩
    · rw [Check_other det s k id hk]
      exact ⟨r, h, rfl, rfl, fun _ => rfl⟩
  | result env now k =>
    simp only [Op.apply]
    by_cases hk : id = k
    · subst hk
      cases hp : r.IsProcessed with
      | true =>
        rw [Result_processed det env now s id r h hp]
        exact ⟨r, h, rfl, rfl, fun _ => rfl⟩
      | false =>
        rw [Result_unprocessed det env now s id r h hp]
        exact ⟨_, Registry.set_same _ _ _, rfl, rfl, fun hc => by cases hc⟩
    · rw [Result_other det env now s k id hk]
      exact ⟨r, h, rfl, rfl, fun _ => rfl⟩
  | serveImage k e n =>
    exact ⟨r, h, rfl, rfl, fun _ => rfl⟩

theorem runOps_cons (det : Detector) (s : Server) (op : Op) (ops : List Op) :
    runOps det s (op :: ops) = runOps det (op.apply det s) ops := rfl

theorem runOps_append (det : Detector) (s : Server) (xs ys : List Op) :
    runOps det s (xs ++ ys) = runOps det (runOps det s xs) ys := by
  simp [runOps, List.foldl_append]

theorem freshUploads_append (det : Detector) (s : Server) (xs ys : List Op)
    (h : freshUploads det s (xs ++ ys) = true) :
    freshUploads det s xs = true ∧ freshUploads det (runOps det s xs) ys = true := by
  induction xs generalizing s with
  | nil => exact ⟨rfl, h⟩
  | cons x xs ih =>
    simp only [List.cons_append, freshUploads, Bool.and_eq_true] at h ⊢
    obtain ⟨h1, h2⟩ := ih _ h.2
    exact ⟨⟨h.1, h1⟩, h2⟩

/-- A run in which uploads get fresh ids keeps every record of the map. -/
theorem runOps_keeps (det : Detector) (ops : List Op) (s : Server) (id : String) (r : ImageData)
    (h : s.ImageResult id = some r) (hf : freshUploads det s ops = true) :
    ∃ r2, (runOps det s ops).ImageResult id = some r2 ∧ r2.FileName = r.FileName ∧
      r2.FileExtension = r.FileExtension ∧ (r.IsProcessed = true → r2 = r) := by
  induction ops generalizing s r with
  | nil => exact ⟨r, h, rfl, rfl, fun _ => rfl⟩
  | cons op ops ih =>
    simp only [freshUploads, Bool.and_eq_true] at hf
    have hfresh : ∀ req, op = .upload req → s.ImageResult req.id = none := by
      intro req hop
      subst hop
      simpa using hf.1
    obtain ⟨r2, h2, hn2, he2, hp2⟩ := Op_keeps det s op id r h hfresh
    obtain ⟨r3, h3, hn3, he3, hp3⟩ := ih (op.apply det s) r2 h2 hf.2
    refine ⟨r3, by rw [runOps_cons]; exact h3, hn3.trans hn2, he3.trans he2, ?_⟩
    intro hp
    have h21 := hp2 hp
    rw [← h21]
    exact hp3 (by rw [h21]; exact hp)

/-! ## Lifecycle -/

/-- C9. Take a run that starts with a successful `Upload` (reply 200) and goes
on with any requests `mid` and then `post`, every upload of the run being given
an id not in the map at that moment. After `mid` and after `post` the record of
the uploaded id is in the map; after `post` its `FileName` and `FileExtension`
are the id and extension of the upload; and if it was processed after `mid`,
it is processed after `post` with the same `FaceCount`. -/
theorem lifecycle_invariant (det : Detector) (s0 : Server) (req : UploadRequest)
    (mid post : List Op)
    (hup : (Upload req s0).1
      = .json 200 { Code := 200, Message := "image uploaded", ID := req.id })
    (hfresh : freshUploads det s0 (.upload req :: (mid ++ post)) = true) :
    ∃ r1 r2,
      (runOps det s0 (.upload req :: mid)).ImageResult req.id = some r1 ∧
      (runOps det s0 (.upload req :: (mid ++ post))).ImageResult req.id = some r2 ∧
      r2.FileName = req.id ∧ r2.FileExtension = req.ext ∧
      (r1.IsProcessed = true → r2.IsProcessed = true ∧ r2.FaceCount = r1.FaceCount) := by
  simp only [freshUploads, Bool.and_eq_true] at hfresh
  obtain ⟨hm, hpost⟩ := freshUploads_append det _ mid post hfresh.2
  have hs1 : ((Op.upload req).apply det s0).ImageResult req.id
      = some { FileName := req.id, FileExtension := req.ext, FaceCount := 0,
               IsProcessed := false } := by
    simp only [Op.apply, Upload_ok req s0 hup, Registry.set_same]
  obtain ⟨r1, h1, hn1, he1, -⟩ := runOps_keeps det mid _ req.id _ hs1 hm
  obtain ⟨r2, h2, hn2, he2, hp2⟩ := runOps_keeps det post _ req.id r1 h1 hpost
  refine ⟨r1, r2, by rw [runOps_cons]; exact h1, ?_, hn2.trans hn1, he2.trans he1, ?_⟩
  · rw [runOps_cons, runOps_append]; exact h2
  · intro hp
    rw [hp2 hp]
    exact ⟨hp, rfl⟩

theorem lifecycle_invariant_witness :
    ((Upload uploadA ⟨Registry.empty, []⟩).1
        = .json 200 { Code := 200, Message := "image uploaded", ID := uploadA.id } ∧
      freshUploads twoFacesDetector ⟨Registry.empty, []⟩
        (.upload uploadA :: ([.check "a"] ++ [.result "" ⟨1000, 0⟩ "a", .check "a"])) = true) ∧
    ∃ r1 r2,
      (runOps twoFacesDetector ⟨Registry.empty, []⟩
        (.upload uploadA :: [.check "a"])).ImageResult uploadA.id = some r1 ∧
      (runOps twoFacesDetector ⟨Registry.empty, []⟩
        (.upload uploadA :: ([.check "a"] ++ [.result "" ⟨1000, 0⟩ "a", .check "a"]))).ImageResult
          uploadA.id = some r2 ∧
      r2.FileName = uploadA.id ∧ r2.FileExtension = uploadA.ext ∧
      (r1.IsProcessed = true → r2.IsProcessed = true ∧ r2.FaceCount = r1.FaceCount) :=
  ⟨⟨by decide, by decide⟩,
    lifecycle_invariant twoFacesDetector ⟨Registry.empty, []⟩ uploadA [.check "a"]
      [.result "" ⟨1000, 0⟩ "a", .check "a"] (by decide) (by decide)⟩

/-! ## Interleaved calls -/

/-- C10 on the code: two concurrent `Check` calls on the uploaded image `a`,
with a detector that counts 2 faces at its first call and 3 at its second.
When the steps of the two calls alternate (both read the record before either
writes it), both call the detector, the first replies 2, the second replies 3
and the map holds 3. When the first call runs to its reply before the second
starts, the detector is called once and both reply 2, the count in the map. -/
theorem interleaved_checks_disagree :
    (runSchedule driftingDetector "a" (oneUploaded, spawn [.check, .check]) [0, 1, 0, 1, 0, 1]).2
      = [{ call := .check, phase := .done (some 2) }, { call := .check, phase := .done (some 3) }] ∧
    (runSchedule driftingDetector "a" (oneUploaded, spawn [.check, .check])
        [0, 1, 0, 1, 0, 1]).1.ImageResult "a"
      = some { FileName := "a", FileExtension := ".png", FaceCount := 3, IsProcessed := true } ∧
    (runSchedule driftingDetector "a" (oneUploaded, spawn [.check, .check])
        [0, 1, 0, 1, 0, 1]).1.detectCalls
      = [{ dir := "uploads", name := "a.png" }, { dir := "uploads", name := "a.png" }] ∧
    (2 : Int) ≠ 3 ∧
    (runSchedule driftingDetector "a" (oneUploaded, spawn [.check, .check]) [0, 0, 0, 1, 1, 1]).2
      = [{ call := .check, phase := .done (some 2) }, { call := .check, phase := .done (some 2) }] ∧
    (runSchedule driftingDetector "a" (oneUploaded, spawn [.check, .check])
        [0, 0, 0, 1, 1, 1]).1.ImageResult "a"
      = some { FileName := "a", FileExtension := ".png", FaceCount := 2, IsProcessed := true } ∧
    (runSchedule driftingDetector "a" (oneUploaded, spawn [.check, .check])
        [0, 0, 0, 1, 1, 1]).1.detectCalls
      = [{ dir := "uploads", name := "a.png" }] := by
  decide

/-- The three steps of a call taken in a row are the handler: same state, and
for `Check` the count seen is the `face_count` of the reply. -/
theorem steps_in_a_row (det : Detector) (s : Server) (id : String) (val : ImageData) (c : Call)
    (h : s.ImageResult id = some val) :
    (runSchedule det id (s, spawn [c]) [0, 0, 0]).1 = (c.toOp id).apply det s ∧
    (c = .check → ∃ code msg fc,
      (Check det s id).1 = .json code { Code := code, Message := msg, FaceCount := fc } ∧
      (runSchedule det id (s, spawn [c]) [0, 0, 0]).2 = [{ call := c, phase := .done (some fc) }]) := by
  cases hp : val.IsProcessed with
  | true =>
    rw [Call_processed det s id val c h hp]
    refine ⟨?_, ?_⟩
    · simp [runSchedule, stepAt, spawn, Thread.step, h, hp]
    · intro hc
      subst hc
      refine ⟨200, "image id found", val.FaceCount, ?_, ?_⟩
      · rw [Check_processed det s id val h hp]
      · simp [runSchedule, stepAt, spawn, Thread.step, h, hp]
  | false =>
    rw [Call_unprocessed det s id val c h hp]
    refine ⟨?_, ?_⟩
    · simp [runSchedule, stepAt, spawn, Thread.step, h, hp, DetectFace_eq]
    · intro hc
      subst hc
      refine ⟨200, "image id found", (classify (det s.detectCalls.length
        { dir := "uploads", name := val.FileName ++ val.FileExtension })).1, ?_, ?_⟩
      · rw [Check_unprocessed det s id val h hp]
      · simp [runSchedule, stepAt, spawn, Thread.step, h, hp, DetectFace_eq]

end FaceDetector
